import Mathlib

/-!
Shallow embedding of the Helios-Starling WebSocket client library
(`@helios-starling/starling`) for checking its natural-language
specification.  Each definition translates one function of the
JavaScript source; theorems at the end settle the spec claims.
-/

/-! ## MessageBuffer (message-buffer.js)

`MessageBuffer` keeps `messages : BufferedMessage[]` with
`maxSize = 1000`.  `isFull` is `messages.length >= maxSize`;
`add` shifts the oldest element when full, then pushes
`{content, timestamp, attempts: 0}` and returns `true`.
-/

/-- A buffered message: `{content, timestamp, attempts}`. -/
structure BufferedMessage (α : Type) where
  content : α
  timestamp : Nat
  attempts : Nat
  deriving DecidableEq, Repr

/-- Events the buffer emits on `add` (`buffer:full`, `buffer:added`). -/
inductive BufferEvent where
  | full
  | added
  deriving DecidableEq, Repr

/-- Result of `MessageBuffer.add`: the new `messages` array, the events
emitted, and the return value (always `true` in the source). -/
structure AddResult (α : Type) where
  buffer : List (BufferedMessage α)
  events : List BufferEvent
  ret : Bool
  deriving DecidableEq, Repr

/-- `MessageBuffer.isFull`: `this.messages.length >= this.maxSize`. -/
def MessageBuffer.isFull (maxSize : Nat) (messages : List (BufferedMessage α)) : Bool :=
  maxSize ≤ messages.length

/-- `MessageBuffer.add(message)`: when full, emits `buffer:full` and
`shift()`s the oldest entry; then pushes `{content, timestamp: Date.now(),
attempts: 0}`, emits `buffer:added` and returns `true`. -/
def MessageBuffer.add (maxSize now : Nat) (messages : List (BufferedMessage α)) (message : α) :
    AddResult α :=
  if MessageBuffer.isFull maxSize messages then
    { buffer := messages.tail ++ [⟨message, now, 0⟩]
      events := [BufferEvent.full, BufferEvent.added]
      ret := true }
  else
    { buffer := messages ++ [⟨message, now, 0⟩]
      events := [BufferEvent.added]
      ret := true }

/-- `MessageBuffer.flush` body: iterate over `messages` in order; a
message whose `ws.send` succeeds is written (and dropped from the
buffer), a message whose send throws is kept in `remaining`.  Returns
(written contents in order, remaining messages in order). -/
def MessageBuffer.flushLoop (sendOk : BufferedMessage α → Bool) :
    List (BufferedMessage α) → List α × List (BufferedMessage α)
  | [] => ([], [])
  | m :: rest =>
    let r := MessageBuffer.flushLoop sendOk rest
    if sendOk m then (m.content :: r.1, r.2) else (r.1, m :: r.2)

/-- `MessageBuffer.flush()`: `if (!this.starling.connected) return;`
otherwise run the send loop and replace `messages` with the failures. -/
def MessageBuffer.flush (connected : Bool) (sendOk : BufferedMessage α → Bool)
    (messages : List (BufferedMessage α)) : List α × List (BufferedMessage α) :=
  if connected then MessageBuffer.flushLoop sendOk messages else ([], messages)

/-! ## Starling.send (src/core/starling.js, first generation)

`send(message)`: if not connected, `return this.messageBuffer.add(message)`;
otherwise try `ws.send` and return `true`, falling back to the buffer on
a throw. -/

/-- Result of `Starling.send`: return value, new buffer, emitted events. -/
structure SendResult (α : Type) where
  ret : Bool
  buffer : List (BufferedMessage α)
  events : List BufferEvent
  deriving DecidableEq, Repr

/-- `Starling.send(message)` translated; `wsOk` tells whether the raw
`ws.send` call would succeed. -/
def Starling.send (connected wsOk : Bool) (maxSize now : Nat)
    (messages : List (BufferedMessage α)) (message : α) : SendResult α :=
  if ¬connected then
    let r := MessageBuffer.add maxSize now messages message
    ⟨r.ret, r.buffer, r.events⟩
  else if wsOk then ⟨true, messages, []⟩
  else
    let r := MessageBuffer.add maxSize now messages message
    ⟨r.ret, r.buffer, r.events⟩

/-- Buffer state after sending each frame of `frames` while disconnected
(each `send` routes to `MessageBuffer.add`). -/
def Starling.sendAllOffline (maxSize now : Nat) (frames : List α) :
    List (BufferedMessage α) :=
  frames.foldl (fun buf f => (Starling.send false true maxSize now buf f).buffer) []

/-! ### Buffer lemmas -/

/-- The entry `add` pushes for content `f`: `{content: f, timestamp: now, attempts: 0}`. -/
def MessageBuffer.entry (now : Nat) (f : α) : BufferedMessage α := ⟨f, now, 0⟩

/-- One offline `send` is an `add` on the buffer. -/
theorem Starling.sendOffline_buffer (maxSize now : Nat)
    (buf : List (BufferedMessage α)) (f : α) :
    (Starling.send false true maxSize now buf f).buffer =
      (MessageBuffer.add maxSize now buf f).buffer := rfl

/-- Core drop-oldest characterisation: folding `add` over `frames`
starting from a buffer within capacity keeps exactly the suffix that
fits. -/
theorem MessageBuffer.addAll_eq_drop (maxSize now : Nat) (hC : 1 ≤ maxSize) :
    ∀ (frames : List α) (buf : List (BufferedMessage α)),
      buf.length ≤ maxSize →
      frames.foldl (fun b f => (MessageBuffer.add maxSize now b f).buffer) buf =
        (buf ++ frames.map (MessageBuffer.entry now)).drop
          (buf.length + frames.length - maxSize) := by
  intro frames
  induction frames with
  | nil =>
    intro buf hb
    simp [Nat.sub_eq_zero_of_le hb]
  | cons f fs ih =>
    intro buf hb
    by_cases hfull : MessageBuffer.isFull maxSize buf
    · have hlen : buf.length = maxSize := by
        have : maxSize ≤ buf.length := by
          simpa [MessageBuffer.isFull] using hfull
        omega
      have hne : buf ≠ [] := by
        intro h
        rw [h] at hlen
        simp at hlen
        omega
      obtain ⟨b, t, rfl⟩ := List.exists_cons_of_ne_nil hne
      have hstep :
          (MessageBuffer.add maxSize now (b :: t) f).buffer = t ++ [⟨f, now, 0⟩] := by
        simp [MessageBuffer.add, hfull]
      have htlen : (t ++ [(⟨f, now, 0⟩ : BufferedMessage α)]).length ≤ maxSize := by
        simp at hlen ⊢
        omega
      simp only [List.foldl_cons, hstep]
      rw [ih _ htlen]
      have harith :
          (t ++ [(⟨f, now, 0⟩ : BufferedMessage α)]).length + fs.length - maxSize
            = fs.length := by
        simp at hlen ⊢
        omega
      have harith2 :
          (b :: t).length + (f :: fs).length - maxSize = fs.length + 1 := by
        simp at hlen ⊢
        omega
      rw [harith, harith2]
      simp [List.drop_succ_cons, MessageBuffer.entry]
    · have hlt : buf.length < maxSize := by
        simp [MessageBuffer.isFull] at hfull
        omega
      have hstep :
          (MessageBuffer.add maxSize now buf f).buffer = buf ++ [⟨f, now, 0⟩] := by
        simp [MessageBuffer.add, hfull]
      have hlen2 : (buf ++ [(⟨f, now, 0⟩ : BufferedMessage α)]).length ≤ maxSize := by
        simp
        omega
      simp only [List.foldl_cons, hstep]
      rw [ih _ hlen2]
      have harith :
          (buf ++ [(⟨f, now, 0⟩ : BufferedMessage α)]).length + fs.length
            = buf.length + (f :: fs).length := by
        simp
        omega
      rw [harith]
      simp [MessageBuffer.entry]

/-- Offline sends from an empty buffer retain exactly the last
`maxSize` frames. -/
theorem Starling.sendAllOffline_eq_drop (maxSize now : Nat) (hC : 1 ≤ maxSize)
    (frames : List α) :
    Starling.sendAllOffline maxSize now frames =
      (frames.map (MessageBuffer.entry now)).drop (frames.length - maxSize) := by
  have h := MessageBuffer.addAll_eq_drop maxSize now hC frames ([] : List (BufferedMessage α))
    (by simp)
  simpa [Starling.sendAllOffline, Starling.send, MessageBuffer.add] using h

/-! ## RequestsManager and Request (src/managers/requests.manager.js)

`pending` is a `Map<string, Request>`; we embed it as an association
list with unique ids.  The promise settlements a call performs are
returned as an explicit list of `Settlement`s. -/

/-- An inbound response frame as consumed by `handleResponse`. -/
structure ResponseFrame where
  requestId : String
  success : Bool
  deriving DecidableEq, Repr

/-- A promise settlement performed by the requests machinery. -/
inductive Settlement where
  | resolved (requestId : String)
  | rejected (requestId : String) (code : String)
  deriving DecidableEq, Repr

/-- `Map.delete` on the pending table. -/
def RequestsManager.remove (pending : List (String × Bool)) (id : String) :
    List (String × Bool) :=
  pending.filter (fun e => e.1 ≠ id)

/-- `Request.handleResponse(response)`: `clearTimeout`, then resolve on
`response.success`, otherwise reject with the response error. -/
def Request.handleResponse (response : ResponseFrame) : Settlement :=
  if response.success then Settlement.resolved response.requestId
  else Settlement.rejected response.requestId "RESPONSE_ERROR"

/-- `RequestsManager.handleResponse(response)`: look the requestId up in
`pending`; when found, settle the request and remove it; when absent, do
nothing.  The `Bool` stored with each id stands for the `retry` option
of the held `Request` (its value is irrelevant to the routing). -/
def RequestsManager.handleResponse (pending : List (String × Bool))
    (response : ResponseFrame) : List (String × Bool) × List Settlement :=
  match pending.lookup response.requestId with
  | some _ =>
    (RequestsManager.remove pending response.requestId, [Request.handleResponse response])
  | none => (pending, [])

/-- `Request.handleTimeout()`: reject the promise with
`{code: 'REQUEST_TIMEOUT'}` and remove the request from the manager. -/
def Request.handleTimeout (pending : List (String × Bool)) (id : String) :
    List (String × Bool) × List Settlement :=
  (RequestsManager.remove pending id, [Settlement.rejected id "REQUEST_TIMEOUT"])

/-- Looking an id up after `remove` finds nothing. -/
theorem RequestsManager.lookup_remove (pending : List (String × Bool)) (id : String) :
    (RequestsManager.remove pending id).lookup id = none := by
  induction pending with
  | nil => rfl
  | cons e rest ih =>
    obtain ⟨k, v⟩ := e
    by_cases h : k = id
    · have hstep : RequestsManager.remove ((k, v) :: rest) id =
          RequestsManager.remove rest id := by
        simp [RequestsManager.remove, List.filter_cons, h]
      rw [hstep]
      exact ih
    · have hstep : RequestsManager.remove ((k, v) :: rest) id =
          (k, v) :: RequestsManager.remove rest id := by
        simp [RequestsManager.remove, List.filter_cons, h]
      have hbeq : (id == k) = false := beq_eq_false_iff_ne.mpr (fun hh => h hh.symm)
      rw [hstep]
      simp only [List.lookup, hbeq]
      exact ih

/-! ## ReconnectionManager (src/managers/reconnection.js)

Delays are JavaScript numbers; we embed them as rationals. -/

/-- Reconnection options: `{minDelay, maxDelay, backoffMultiplier, ...}`. -/
structure ReconnectionOptions where
  minDelay : ℚ
  maxDelay : ℚ
  backoffMultiplier : ℚ
  deriving DecidableEq, Repr

/-- The delay computation of `_scheduleNextAttempt`:
`Math.min(currentDelay * backoffMultiplier, maxDelay)`; the result is
stored back into `currentDelay` and then waited. -/
def ReconnectionManager.scheduleDelay (o : ReconnectionOptions) (currentDelay : ℚ) : ℚ :=
  min (currentDelay * o.backoffMultiplier) o.maxDelay

/-- The i-th wait of the scheduling loop, starting from
`currentDelay = minDelay` (constructor / `_resetIfNeeded`): the
multiplication is applied before each wait. -/
def ReconnectionManager.waitSeq (o : ReconnectionOptions) : Nat → ℚ
  | 0 => ReconnectionManager.scheduleDelay o o.minDelay
  | n + 1 => ReconnectionManager.scheduleDelay o (ReconnectionManager.waitSeq o n)

/-- `getMetrics`' average:
`attemptDurations.length > 0 ? sum / length : 0`. -/
def ReconnectionManager.averageAttemptDuration (attemptDurations : List ℚ) : ℚ :=
  if 0 < attemptDurations.length then attemptDurations.sum / attemptDurations.length
  else 0

/-- The `starling:connected` handler: `push(duration)` then `shift()`
when more than 10 durations are stored. -/
def ReconnectionManager.updateAttemptDurations (attemptDurations : List ℚ) (d : ℚ) :
    List ℚ :=
  let l := attemptDurations ++ [d]
  if 10 < l.length then l.tail else l

/-! ## MethodsManager (src/managers/methods.manager.js)

`validateMethodName` checks, in order: non-empty string, length >= 3,
the regex `^[a-zA-Z][\w:]*$`, uniqueness, and that the namespace (the
part before the first `:`, or the whole name) is not reserved.  The
reserved set is `{'system', 'internal', 'stream', 'helios'}`. -/

/-- The distinct throw sites of `validateMethodName`. -/
inductive NameError where
  | emptyName
  | tooShort
  | invalidFormat
  | methodExists
  | namespaceReserved
  deriving DecidableEq, Repr

/-- ASCII letter, the `[a-zA-Z]` class. -/
def isAsciiLetter (c : Char) : Bool :=
  ('a' ≤ c && c ≤ 'z') || ('A' ≤ c && c ≤ 'Z')

/-- The `[\w:]` class: letters, digits, underscore, colon. -/
def isWordOrColon (c : Char) : Bool :=
  isAsciiLetter c || ('0' ≤ c && c ≤ '9') || c = '_' || c = ':'

/-- The method-name regex `^[a-zA-Z][\w:]*$`. -/
def matchesNameRegex (name : String) : Bool :=
  match name.data with
  | [] => false
  | c :: rest => isAsciiLetter c && rest.all isWordOrColon

/-- `name.split(':')[0]`: the characters before the first `:` (the whole
name when it has no colon). -/
def namespaceOf (name : String) : String :=
  ⟨name.data.takeWhile (fun c => c ≠ ':')⟩

/-- `this.reservedNames = new Set(['system', 'internal', 'stream', 'helios'])`. -/
def MethodsManager.reservedNames : List String :=
  ["system", "internal", "stream", "helios"]

/-- `MethodsManager.validateMethodName(name)`, with `existing` the keys
of `this.methods`; `some e` means the corresponding `throw`. -/
def MethodsManager.validateMethodName (existing : List String) (name : String) :
    Option NameError :=
  if name = "" then some NameError.emptyName
  else if name.length < 3 then some NameError.tooShort
  else if ¬ matchesNameRegex name then some NameError.invalidFormat
  else if name ∈ existing then some NameError.methodExists
  else if namespaceOf name ∈ MethodsManager.reservedNames then
    some NameError.namespaceReserved
  else none

/-! ## Notification routing (src/core/starling.js, first generation)

`handleNotification(notification)` checks, in order:
`notification.type === 'starling:token'` (store the recovery token),
`notification.topic && notification.data` (emit on the topic bus),
otherwise the `notification` hook.  The notification's `requestId`
field is never consulted. -/

/-- An inbound notification object.  `data` is an arbitrary non-null
JSON value when present (a present `data` is treated as truthy). -/
structure NotificationMsg (α : Type) where
  ntype : Option String
  topic : Option String
  data : Option α
  requestId : Option String
  deriving DecidableEq, Repr

/-- JavaScript truthiness of an optional string (`undefined` and the
empty string are falsy). -/
def jsTruthyStr : Option String → Bool
  | none => false
  | some s => s ≠ ""

/-- Where `handleNotification` delivers a notification.
`requestStream` is never produced by this implementation; it names the
delivery target the spec describes for request-correlated progress
notifications. -/
inductive NotificationRoute (α : Type) where
  | tokenUpdate (data : Option α)
  | topicEmit (topic : String) (data : α)
  | hook
  | requestStream (requestId : String)
  deriving DecidableEq, Repr

/-- `Starling.handleNotification(notification)` translated.  The
`pending` request table is passed in to show it plays no role. -/
def Starling.handleNotification (_pending : List String) (n : NotificationMsg α) :
    NotificationRoute α :=
  if n.ntype = some "starling:token" then NotificationRoute.tokenUpdate n.data
  else
    match n.topic, n.data with
    | some t, some d => if t ≠ "" then NotificationRoute.topicEmit t d
        else NotificationRoute.hook
    | _, _ => NotificationRoute.hook

/-- Fallback of the spec-worded router: `topic` dispatch, else hook. -/
def specTopicFallback (n : NotificationMsg α) : NotificationRoute α :=
  match n.topic, n.data with
  | some t, some d => NotificationRoute.topicEmit t d
  | _, _ => NotificationRoute.hook

/-- The routing rule claimed by the spec (`requestId` first, then
`topic`, then the hook), written from the spec's words for comparison. -/
def specNotificationRoute (pending : List String) (n : NotificationMsg α) :
    NotificationRoute α :=
  match n.requestId with
  | some rid =>
    if rid ∈ pending then NotificationRoute.requestStream rid
    else specTopicFallback n
  | none => specTopicFallback n

/-! ## StateManager (src/managers/state.js)

`refresh({force, timeout})`: reject when already refreshing; when not
forced and a previous refresh exists, reject when `now - lastRefresh`
is below `minRefreshInterval`; otherwise loop up to `retryAttempts`
protocol requests to `starling:state`.  Timestamps are milliseconds;
we embed them as integers (JavaScript subtraction can go negative). -/

/-- StateManager options relevant to `refresh`. -/
structure StateOptions where
  minRefreshInterval : Int
  retryAttempts : Nat
  deriving DecidableEq, Repr

/-- The StateManager state touched by `refresh`. -/
structure StateMgr where
  token : Option String
  lastRefresh : Option Int
  refreshing : Bool
  refreshes : Nat
  refreshFailures : Nat
  deriving DecidableEq, Repr

/-- The rejections `refresh` can produce. -/
inductive RefreshError where
  | refreshInProgress
  | minIntervalNotReached
  | requestFailed
  deriving DecidableEq, Repr

/-- Outcome of one `refresh` call: the result, the updated state, and
how many protocol requests were issued. -/
structure RefreshOutcome where
  result : Except RefreshError String
  state : StateMgr
  requestsIssued : Nat
  deriving Repr

/-- The retry loop of `refresh`: up to `fuel` attempts, each issuing a
`starling:state` request whose outcome is `oracle attemptIdx` (`some
token` on success).  Returns the result, the requests issued and the
failed attempts counted into `refreshFailures`. -/
def StateManager.refreshLoop (oracle : Nat → Option String) :
    Nat → Nat → Except RefreshError String × Nat × Nat
  | _, 0 => (Except.error RefreshError.requestFailed, 0, 0)
  | idx, fuel + 1 =>
    match oracle idx with
    | some tok => (Except.ok tok, 1, 0)
    | none =>
      let r := StateManager.refreshLoop oracle (idx + 1) fuel
      (r.1, r.2.1 + 1, r.2.2 + 1)

/-- `StateManager.refresh(options)` translated. -/
def StateManager.refresh (o : StateOptions) (s : StateMgr) (force : Bool)
    (now : Int) (oracle : Nat → Option String) : RefreshOutcome :=
  if s.refreshing then
    { result := Except.error RefreshError.refreshInProgress
      state := s, requestsIssued := 0 }
  else
    let throttled : Bool :=
      !force && match s.lastRefresh with
        | some t => decide (now - t < o.minRefreshInterval)
        | none => false
    if throttled then
      { result := Except.error RefreshError.minIntervalNotReached
        state := s, requestsIssued := 0 }
    else
      let r := StateManager.refreshLoop oracle 0 o.retryAttempts
      match r.1 with
      | Except.ok tok =>
        { result := Except.ok tok
          state := { s with token := some tok, lastRefresh := some now,
                            refreshes := s.refreshes + 1, refreshing := false }
          requestsIssued := r.2.1 }
      | Except.error e =>
        { result := Except.error e
          state := { s with refreshFailures := s.refreshFailures + r.2.2,
                            refreshing := false }
          requestsIssued := r.2.1 }

/-- The retry loop never rejects with the throttle error. -/
theorem StateManager.refreshLoop_no_throttle (oracle : Nat → Option String) :
    ∀ idx fuel, (StateManager.refreshLoop oracle idx fuel).1 ≠
      Except.error RefreshError.minIntervalNotReached := by
  intro idx fuel
  induction fuel generalizing idx with
  | zero => simp [StateManager.refreshLoop]
  | succ f ih =>
    cases hor : oracle idx with
    | some tok => simp [StateManager.refreshLoop, hor]
    | none =>
      have := ih (idx + 1)
      simpa [StateManager.refreshLoop, hor] using this

/-- Flushing when every socket write succeeds writes every buffered
content in order and leaves nothing behind. -/
theorem MessageBuffer.flushLoop_all_ok (msgs : List (BufferedMessage α)) :
    MessageBuffer.flushLoop (fun _ => true) msgs =
      (msgs.map (fun m => m.content), []) := by
  induction msgs with
  | nil => rfl
  | cons m rest ih => simp [MessageBuffer.flushLoop, ih]

/-- Offline sends never exceed the capacity. -/
theorem Starling.sendAllOffline_length_le (maxSize now : Nat) (hC : 1 ≤ maxSize)
    (frames : List α) :
    (Starling.sendAllOffline maxSize now frames).length ≤ maxSize := by
  rw [Starling.sendAllOffline_eq_drop maxSize now hC frames]
  simp
  omega

/-! ## Claim theorems -/

/-- C1: after a request has been rejected with `REQUEST_TIMEOUT` (its
timeout handler rejects exactly once and removes it from the pending
table), a response frame arriving later with the same requestId is
silently dropped: `handleResponse` leaves the pending table unchanged
and performs no settlement, so no callback runs after the terminal
transition. -/
theorem C1_late_response_after_timeout (pending : List (String × Bool))
    (response : ResponseFrame) :
    (Request.handleTimeout pending response.requestId).2 =
        [Settlement.rejected response.requestId "REQUEST_TIMEOUT"]
    ∧ RequestsManager.handleResponse (Request.handleTimeout pending response.requestId).1
        response
      = ((Request.handleTimeout pending response.requestId).1, []) := by
  constructor
  · rfl
  · simp [Request.handleTimeout, RequestsManager.handleResponse,
      RequestsManager.lookup_remove]

/-- C2: for capacity `maxSize ≥ 1`, enqueueing any sequence of frames
while disconnected retains exactly the last `maxSize` frames in
insertion order, the buffer length never exceeds `maxSize` after any
prefix of the operations, and `add` keeps the length unchanged (drops
the oldest) exactly when the buffer is full. -/
theorem C2_drop_oldest_bound (maxSize now : Nat) (hC : 1 ≤ maxSize)
    (frames : List α) (i : Nat) (buf : List (BufferedMessage α)) (m : α) :
    Starling.sendAllOffline maxSize now frames
        = (frames.map (MessageBuffer.entry now)).drop (frames.length - maxSize)
    ∧ (Starling.sendAllOffline maxSize now (frames.take i)).length ≤ maxSize
    ∧ ((MessageBuffer.add maxSize now buf m).buffer.length = buf.length
        ↔ maxSize ≤ buf.length) := by
  refine ⟨Starling.sendAllOffline_eq_drop maxSize now hC frames,
    Starling.sendAllOffline_length_le maxSize now hC _, ?_⟩
  by_cases h : maxSize ≤ buf.length
  · have hfull : MessageBuffer.isFull maxSize buf := by
      simpa [MessageBuffer.isFull] using h
    have hne : buf.length ≠ 0 := by omega
    simp [MessageBuffer.add, hfull, h]
    omega
  · have hfull : ¬ MessageBuffer.isFull maxSize buf := by
      simpa [MessageBuffer.isFull] using h
    simp [MessageBuffer.add, hfull, h]

/-- C2 witness: capacity 2, five frames; the buffer keeps the last
two, prefixes stay within capacity, a full buffer of length 2 keeps
its length on `add`. -/
theorem C2_drop_oldest_bound_witness :
    (1 ≤ 2
    ∧ Starling.sendAllOffline 2 0 (["a", "b", "c", "d", "e"] : List String)
        = ((["a", "b", "c", "d", "e"] : List String).map (MessageBuffer.entry 0)).drop
            ((["a", "b", "c", "d", "e"] : List String).length - 2)
    ∧ (Starling.sendAllOffline 2 0 ((["a", "b", "c", "d", "e"] : List String).take 3)).length
        ≤ 2
    ∧ ((MessageBuffer.add 2 0 [MessageBuffer.entry 0 "x", MessageBuffer.entry 0 "y"]
          "z").buffer.length = [MessageBuffer.entry 0 "x", MessageBuffer.entry 0 "y"].length
        ↔ 2 ≤ [MessageBuffer.entry 0 "x", MessageBuffer.entry 0 "y"].length)) :=
  ⟨by decide,
    C2_drop_oldest_bound 2 0 (by decide) ["a", "b", "c", "d", "e"] 3
      [MessageBuffer.entry 0 "x", MessageBuffer.entry 0 "y"] "z"⟩

/-- C3: with the client offline and fewer frames than the capacity,
sending F1…Fn buffers them via `Starling.send`; opening the socket and
flushing (with every socket write succeeding) writes exactly F1…Fn in
insertion order and empties the buffer. -/
theorem C3_fifo_flush (maxSize now : Nat) (frames : List α)
    (h : frames.length < maxSize) :
    MessageBuffer.flush true (fun _ => true) (Starling.sendAllOffline maxSize now frames)
      = (frames, []) := by
  have hC : 1 ≤ maxSize := by omega
  have h1 := Starling.sendAllOffline_eq_drop maxSize now hC frames
  have h0 : frames.length - maxSize = 0 := by omega
  rw [h0, List.drop_zero] at h1
  have hcomp : ((fun (m : BufferedMessage α) => m.content) ∘ MessageBuffer.entry now)
      = fun f => f := by
    funext f
    rfl
  simp [MessageBuffer.flush, h1, MessageBuffer.flushLoop_all_ok, List.map_map, hcomp]

/-- C3 witness: three frames with capacity 1000 are flushed in order. -/
theorem C3_fifo_flush_witness :
    ((["f1", "f2", "f3"] : List String).length < 1000
    ∧ MessageBuffer.flush true (fun _ => true)
        (Starling.sendAllOffline 1000 0 (["f1", "f2", "f3"] : List String))
      = (["f1", "f2", "f3"], [])) :=
  ⟨by decide, C3_fifo_flush 1000 0 ["f1", "f2", "f3"] (by decide)⟩

/-- C4: the scheduling loop's waits satisfy
`d_i = min(maxDelay, d_{i-1} * backoffMultiplier)` starting from
`currentDelay = minDelay`, with the multiplication applied before each
wait, so the first wait is `min(maxDelay, minDelay * backoffMultiplier)`
and (for `0 < minDelay < maxDelay` and multiplier `> 1`) not
`minDelay`. -/
theorem C4_backoff_recurrence (o : ReconnectionOptions) (i : Nat)
    (h1 : 0 < o.minDelay) (h2 : o.minDelay < o.maxDelay)
    (h3 : 1 < o.backoffMultiplier) :
    ReconnectionManager.waitSeq o 0 = min o.maxDelay (o.minDelay * o.backoffMultiplier)
    ∧ ReconnectionManager.waitSeq o (i + 1)
        = min o.maxDelay (ReconnectionManager.waitSeq o i * o.backoffMultiplier)
    ∧ ReconnectionManager.waitSeq o 0 ≠ o.minDelay := by
  refine ⟨?_, ?_, ?_⟩
  · simp [ReconnectionManager.waitSeq, ReconnectionManager.scheduleDelay, min_comm]
  · simp [ReconnectionManager.waitSeq, ReconnectionManager.scheduleDelay, min_comm]
  · have hmul : o.minDelay < o.minDelay * o.backoffMultiplier :=
      (lt_mul_iff_one_lt_right h1).mpr h3
    have hlt : o.minDelay < min (o.minDelay * o.backoffMultiplier) o.maxDelay :=
      lt_min hmul h2
    simpa [ReconnectionManager.waitSeq, ReconnectionManager.scheduleDelay]
      using hlt.ne'

/-- C4 witness at the spec defaults `minDelay=100, maxDelay=30000,
multiplier=1.5`: the first wait is `150`, not `100`. -/
theorem C4_backoff_recurrence_witness :
    ((0 : ℚ) < 100 ∧ (100 : ℚ) < 30000 ∧ (1 : ℚ) < 3 / 2)
    ∧ (ReconnectionManager.waitSeq ⟨100, 30000, 3 / 2⟩ 0
        = min (30000 : ℚ) (100 * (3 / 2))
      ∧ ReconnectionManager.waitSeq ⟨100, 30000, 3 / 2⟩ (0 + 1)
        = min (30000 : ℚ) (ReconnectionManager.waitSeq ⟨100, 30000, 3 / 2⟩ 0 * (3 / 2))
      ∧ ReconnectionManager.waitSeq ⟨100, 30000, 3 / 2⟩ 0 ≠ 100) :=
  ⟨⟨by norm_num, by norm_num, by norm_num⟩,
    C4_backoff_recurrence ⟨100, 30000, 3 / 2⟩ 0 (by norm_num) (by norm_num) (by norm_num)⟩

/-- C5 counterexample: `starling` is not in the reserved set
`{system, internal, stream, helios}`, so `validateMethodName` accepts
`starling:state` on a fresh registry — registration does not throw,
contradicting the claim as stated. -/
theorem C5_counterexample :
    namespaceOf "starling:state" = "starling"
    ∧ MethodsManager.validateMethodName [] "starling:state" = none := by
  constructor
  · rfl
  · decide

/-- C5 amended: names in the `starling` namespace are registrable by
user code — any syntactically valid, non-duplicate name whose namespace
is `starling` passes `validateMethodName` (only `{system, internal,
stream, helios}` are blocked); such methods remain callable. -/
theorem C5_starling_namespace_registrable (existing : List String) (name : String)
    (hns : namespaceOf name = "starling") (hlen : 3 ≤ name.length)
    (hre : matchesNameRegex name = true) (hdup : name ∉ existing) :
    MethodsManager.validateMethodName existing name = none := by
  have hne : name ≠ "" := by
    intro h
    rw [h] at hre
    simp [matchesNameRegex] at hre
  have hlen2 : ¬ name.length < 3 := by omega
  have hres : namespaceOf name ∉ MethodsManager.reservedNames := by
    rw [hns]
    decide
  simp [MethodsManager.validateMethodName, hne, hlen2, hre, hdup, hres]

/-- C5 amended witness: `starling:state` itself is accepted on a fresh
registry. -/
theorem C5_starling_namespace_registrable_witness :
    (namespaceOf "starling:state" = "starling"
      ∧ 3 ≤ ("starling:state" : String).length
      ∧ matchesNameRegex "starling:state" = true
      ∧ ("starling:state" : String) ∉ ([] : List String))
    ∧ MethodsManager.validateMethodName [] "starling:state" = none :=
  ⟨⟨rfl, by decide, by decide, by decide⟩,
    C5_starling_namespace_registrable [] "starling:state" rfl (by decide) (by decide)
      (by decide)⟩

/-- C6 counterexample: a valid notification whose `requestId` (`"r1"`)
matches a pending request and which carries no topic is routed to the
`onnotification` hook, not to the request's progress/notification
stream as the claim states (the spec-worded router disagrees with the
source router on this input). -/
theorem C6_counterexample :
    Starling.handleNotification ["r1"]
        ({ ntype := none, topic := none, data := some 1, requestId := some "r1" }
          : NotificationMsg Nat)
      = NotificationRoute.hook
    ∧ specNotificationRoute ["r1"]
        ({ ntype := none, topic := none, data := some 1, requestId := some "r1" }
          : NotificationMsg Nat)
      = NotificationRoute.requestStream "r1"
    ∧ (NotificationRoute.hook : NotificationRoute Nat)
        ≠ NotificationRoute.requestStream "r1" := by
  refine ⟨rfl, ?_, by decide⟩
  decide

/-- C6 amended: `handleNotification` never consults `requestId` or the
pending-request table — routing is: `type === 'starling:token'` updates
the recovery token, else a (truthy) `topic` with `data` goes to topic
subscribers, else the notification goes to the `onnotification` hook. -/
theorem C6_notification_routing (pending pend2 : List String)
    (n : NotificationMsg α) (r r2 : Option String) (t : String) (d : α)
    (hnt : n.ntype ≠ some "starling:token") :
    Starling.handleNotification pending { n with requestId := r }
        = Starling.handleNotification pend2 { n with requestId := r2 }
    ∧ (n.topic = some t → n.data = some d → t ≠ "" →
        Starling.handleNotification pending n = NotificationRoute.topicEmit t d)
    ∧ (n.topic = none ∨ n.data = none →
        Starling.handleNotification pending n = NotificationRoute.hook) := by
  refine ⟨rfl, ?_, ?_⟩
  · intro ht hd htne
    simp [Starling.handleNotification, hnt, ht, hd, htne]
  · intro hcase
    rcases hcase with h | h <;>
      · cases hto : n.topic <;> cases hda : n.data <;>
          simp_all [Starling.handleNotification, hnt]

/-- C6 amended witness: a topic notification routes to its topic
independently of the requestId field and the pending table. -/
theorem C6_notification_routing_witness :
    (({ ntype := none, topic := some "news", data := some 5, requestId := none }
        : NotificationMsg Nat).ntype ≠ some "starling:token")
    ∧ (Starling.handleNotification []
        { ({ ntype := none, topic := some "news", data := some 5, requestId := none }
            : NotificationMsg Nat) with requestId := some "r9" }
      = Starling.handleNotification ["r9"]
        { ({ ntype := none, topic := some "news", data := some 5, requestId := none }
            : NotificationMsg Nat) with requestId := none }
    ∧ (({ ntype := none, topic := some "news", data := some 5, requestId := none }
          : NotificationMsg Nat).topic = some "news" →
        ({ ntype := none, topic := some "news", data := some 5, requestId := none }
          : NotificationMsg Nat).data = some 5 → "news" ≠ "" →
        Starling.handleNotification []
          ({ ntype := none, topic := some "news", data := some 5, requestId := none }
            : NotificationMsg Nat)
          = NotificationRoute.topicEmit "news" 5)
    ∧ (({ ntype := none, topic := some "news", data := some 5, requestId := none }
          : NotificationMsg Nat).topic = none ∨
        ({ ntype := none, topic := some "news", data := some 5, requestId := none }
          : NotificationMsg Nat).data = none →
        Starling.handleNotification []
          ({ ntype := none, topic := some "news", data := some 5, requestId := none }
            : NotificationMsg Nat)
          = NotificationRoute.hook)) :=
  ⟨by decide,
    C6_notification_routing [] ["r9"]
      { ntype := none, topic := some "news", data := some 5, requestId := none }
      (some "r9") none "news" 5 (by decide)⟩

/-- C7: a non-forced `refresh()` while `now - lastRefresh` is below
`minRefreshInterval` (with a previous successful refresh recorded and no
refresh in flight) rejects with the minimum-interval error, issues no
protocol request and leaves the whole state (token, lastRefresh,
counters) unchanged; a forced call never rejects with that error. -/
theorem C7_refresh_throttle (o : StateOptions) (s : StateMgr) (t now : Int)
    (oracle : Nat → Option String) (href : s.refreshing = false)
    (hlast : s.lastRefresh = some t) (hmin : now - t < o.minRefreshInterval) :
    StateManager.refresh o s false now oracle
      = { result := Except.error RefreshError.minIntervalNotReached
          state := s, requestsIssued := 0 }
    ∧ (StateManager.refresh o s true now oracle).result
        ≠ Except.error RefreshError.minIntervalNotReached := by
  constructor
  · simp [StateManager.refresh, href, hlast, hmin]
  · have hloop := StateManager.refreshLoop_no_throttle oracle 0 o.retryAttempts
    simp only [StateManager.refresh, href]
    cases hres : (StateManager.refreshLoop oracle 0 o.retryAttempts).1 with
    | ok tok => simp [hres]
    | error e =>
      have : e ≠ RefreshError.minIntervalNotReached := by
        intro h
        rw [h] at hres
        exact hloop hres
      simp [hres, this]

/-- A concrete StateManager state used by the C7 witness. -/
def sampleStateMgr : StateMgr :=
  { token := some "OLD", lastRefresh := some 1000, refreshing := false,
    refreshes := 5, refreshFailures := 0 }

/-- C7 witness: with `minRefreshInterval = 60000`, `lastRefresh = 1000`
and `now = 1500`, the non-forced call is throttled with no request
issued and unchanged state, while the forced call is not. -/
theorem C7_refresh_throttle_witness :
    (sampleStateMgr.refreshing = false
    ∧ sampleStateMgr.lastRefresh = some 1000
    ∧ (1500 : Int) - 1000 < (60000 : Int))
    ∧ (StateManager.refresh ⟨60000, 3⟩ sampleStateMgr false 1500 (fun _ => some "TOK")
      = { result := Except.error RefreshError.minIntervalNotReached
          state := sampleStateMgr, requestsIssued := 0 }
    ∧ (StateManager.refresh ⟨60000, 3⟩ sampleStateMgr true 1500
        (fun _ => some "TOK")).result
        ≠ Except.error RefreshError.minIntervalNotReached) :=
  ⟨⟨rfl, rfl, by decide⟩,
    C7_refresh_throttle ⟨60000, 3⟩ sampleStateMgr 1000 1500 (fun _ => some "TOK")
      rfl rfl (by decide)⟩

/-- C8 counterexample: `system:a-b` has the reserved namespace `system`
but registration throws the invalid-format error (the regex check runs
before the namespace check), not the reserved-namespace error — so "for
every name with a reserved namespace, the error is NAME_RESERVED" fails
as stated. -/
theorem C8_counterexample :
    namespaceOf "system:a-b" = "system"
    ∧ "system" ∈ MethodsManager.reservedNames
    ∧ MethodsManager.validateMethodName [] "system:a-b" = some NameError.invalidFormat
    ∧ some NameError.invalidFormat ≠ some NameError.namespaceReserved := by
  refine ⟨rfl, by decide, by decide, by decide⟩

/-- C8 amended: every method name whose namespace (prefix before the
first `:`, or the whole name) is in `{system, internal, stream, helios}`
is rejected at registration with some error; when the name additionally
passes the syntactic checks (non-empty is implied, length ≥ 3, the name
regex) and is not a duplicate, that error is the reserved-namespace
error — in particular `registerMethod("system:x", …)` throws it. -/
theorem C8_reserved_namespace (existing : List String) (name : String)
    (hres : namespaceOf name ∈ MethodsManager.reservedNames) :
    (MethodsManager.validateMethodName existing name).isSome = true
    ∧ (3 ≤ name.length → matchesNameRegex name = true → name ∉ existing →
        MethodsManager.validateMethodName existing name
          = some NameError.namespaceReserved) := by
  constructor
  · unfold MethodsManager.validateMethodName
    split_ifs <;> simp_all
  · intro hlen hre hdup
    have hne : name ≠ "" := by
      intro h
      rw [h] at hre
      simp [matchesNameRegex] at hre
    have hlen2 : ¬ name.length < 3 := by omega
    simp [MethodsManager.validateMethodName, hne, hlen2, hre, hdup, hres]

/-- C8 amended witness: `system:x` throws the reserved-namespace
error on a fresh registry. -/
theorem C8_reserved_namespace_witness :
    (namespaceOf "system:x" ∈ MethodsManager.reservedNames)
    ∧ ((MethodsManager.validateMethodName [] "system:x").isSome = true
    ∧ (3 ≤ ("system:x" : String).length → matchesNameRegex "system:x" = true →
        ("system:x" : String) ∉ ([] : List String) →
        MethodsManager.validateMethodName [] "system:x"
          = some NameError.namespaceReserved)) :=
  ⟨by decide, C8_reserved_namespace [] "system:x" (by decide)⟩

/-- C9: `MessageBuffer.add` returns `true` for every input (also when
full and dropping the oldest entry), so `send()` while disconnected
always reports success; overflow is observable only through the
`buffer:full` event, which is emitted exactly when the buffer is
full, never through the return value. -/
theorem C9_add_always_true (maxSize now : Nat) (buf : List (BufferedMessage α))
    (m : α) (wsOk : Bool) :
    (MessageBuffer.add maxSize now buf m).ret = true
    ∧ (Starling.send false wsOk maxSize now buf m).ret = true
    ∧ (BufferEvent.full ∈ (MessageBuffer.add maxSize now buf m).events
        ↔ maxSize ≤ buf.length) := by
  refine ⟨?_, ?_, ?_⟩
  · by_cases h : MessageBuffer.isFull maxSize buf <;> simp [MessageBuffer.add, h]
  · by_cases h : MessageBuffer.isFull maxSize buf <;>
      simp [Starling.send, MessageBuffer.add, h]
  · by_cases h : maxSize ≤ buf.length
    · have hfull : MessageBuffer.isFull maxSize buf := by
        simpa [MessageBuffer.isFull] using h
      simp [MessageBuffer.add, hfull, h]
    · have hfull : ¬ MessageBuffer.isFull maxSize buf := by
        simpa [MessageBuffer.isFull] using h
      simp [MessageBuffer.add, hfull, h]

/-- C10: `getMetrics` reports an average attempt duration of `0` when
no durations are recorded (no 0/0 division), otherwise the arithmetic
mean of the stored durations; the `starling:connected` handler keeps at
most 10 of them. -/
theorem C10_average_attempt_duration (l : List ℚ) (d : ℚ) (hne : l ≠ [])
    (hlen : l.length ≤ 10) :
    ReconnectionManager.averageAttemptDuration [] = 0
    ∧ ReconnectionManager.averageAttemptDuration l = l.sum / l.length
    ∧ (ReconnectionManager.updateAttemptDurations l d).length ≤ 10 := by
  refine ⟨rfl, ?_, ?_⟩
  · have hpos : 0 < l.length := List.length_pos.mpr hne
    simp [ReconnectionManager.averageAttemptDuration, hpos]
  · simp only [ReconnectionManager.updateAttemptDurations]
    split_ifs with h <;> simp_all

/-- C10 witness: the average of `[4, 6]` is `5` and the bound holds. -/
theorem C10_average_attempt_duration_witness :
    (([4, 6] : List ℚ) ≠ [] ∧ ([4, 6] : List ℚ).length ≤ 10)
    ∧ (ReconnectionManager.averageAttemptDuration [] = 0
    ∧ ReconnectionManager.averageAttemptDuration ([4, 6] : List ℚ)
        = ([4, 6] : List ℚ).sum / ([4, 6] : List ℚ).length
    ∧ (ReconnectionManager.updateAttemptDurations ([4, 6] : List ℚ) 1).length ≤ 10) :=
  ⟨⟨by decide, by decide⟩, C10_average_attempt_duration [4, 6] 1 (by decide) (by decide)⟩
